import Mathlib

/-!
Verification of the zamm literate code-generation pipeline, shallowly embedded
from the Rust sources: fragment extraction (src/parse/markdown.rs), override
merging (src/parse/mod.rs), declaration resolution of imported documents
(src/parse/handle_imports.rs), and build orchestration
(src/intermediate_build/build_logic.rs, src/commands/run_command.rs).

Effectful boundaries are abstracted at their interfaces: the Markdown parser
(pulldown_cmark) is represented by the event stream it hands the extractor,
the filesystem by a partial map from paths to parsed event streams, and the
HTTP client (reqwest) by a function from URLs to fetch results.  Machine
integers in the embedded code are `Nat` with the debug-profile overflow check
made explicit (the one unsigned subtraction in `separate_imports` is modelled
by an `Option`, `none` standing for the arithmetic-overflow panic that the
debug profile raises; the intermediate binary is built by `cargo build`
without `--release`, so the debug profile is the operative one).
-/

/-- Rust `str::starts_with`, as a test on the character sequences. -/
def starts_with (s pat : String) : Bool :=
  List.isPrefixOf pat.data s.data

/-- Helper for `str_contains`: does `pat` occur in the list at any position? -/
def contains_from (pat : List Char) : List Char → Bool
  | [] => List.isPrefixOf pat []
  | c :: rest => List.isPrefixOf pat (c :: rest) || contains_from pat rest

/-- Rust `str::contains` for literal patterns. -/
def str_contains (s pat : String) : Bool :=
  contains_from pat.data s.data

/-- `CodeExtraction` (src/parse/markdown.rs): the source buffer (`rust`), the
manifest buffer (`toml`), and the list of import declarations (`imports`).
The `imports` field is the one used by `retrieve_imports`
(src/parse/handle_imports.rs) and the override merge (src/parse/mod.rs); the
snapshot of markdown.rs predates it, so `extract_code` below leaves it empty,
exactly as a `Default`-initialised field. -/
structure CodeExtraction where
  rust : String
  toml : String
  imports : List String
deriving DecidableEq

/-- The pulldown_cmark events that `extract_code` inspects.  `startFenced`
is `Event::Start(Tag::CodeBlock(CodeBlockKind::Fenced(lang)))`; every other
`Start` (including indented code blocks, which the code ignores) is
`startOther`; `endCodeBlock` is `Event::End(Tag::CodeBlock(_))`; all other
events fall under `endOther`/`other` and are no-ops in the source. -/
inductive MdEvent where
  | startFenced (lang : String)
  | startOther
  | text (content : String)
  | endCodeBlock
  | endOther
deriving DecidableEq

/-- One iteration of the `for event in Parser::new(markdown)` loop of
`extract_code`: the state is the current `code_block` tag and the two
buffers being accumulated. -/
def extract_step (st : Option String × String × String) (ev : MdEvent) :
    Option String × String × String :=
  match ev with
  | .startFenced lang => (some lang, st.2.1, st.2.2)
  | .startOther => st
  | .text content =>
    match st.1 with
    | some lang =>
      if lang = "rust" then (st.1, st.2.1 ++ content, st.2.2)
      else if lang = "toml" then (st.1, st.2.1, st.2.2 ++ content)
      else st
    | none => st
  | .endCodeBlock => (none, st.2.1, st.2.2)
  | .endOther => st

/-- Rust `code.ends_with("\n\n")`, the guard of `CodeExtraction::trim_code`. -/
def ends_blank (s : String) : Bool :=
  match s.data.reverse with
  | '\n' :: '\n' :: _ => true
  | _ => false

/-- `CodeExtraction::trim_code`: pop one trailing newline when the buffer ends
with a blank line (`if code.ends_with("\n\n") { code.pop(); }`). -/
def trim_code (code : String) : String :=
  if ends_blank code then String.mk code.data.dropLast else code

/-- `extract_code` (src/parse/markdown.rs): fold the event stream, then trim
each buffer once. -/
def extract_code (events : List MdEvent) : CodeExtraction :=
  let st := events.foldl extract_step (none, "", "")
  { rust := trim_code st.2.1, toml := trim_code st.2.2, imports := [] }

/-- The override merge performed inline in `parse_input` (src/parse/mod.rs):
source buffers concatenate (base first), while the import list and the
manifest buffer of the override fully replace the base's when non-empty. -/
def merge_override (base ov : CodeExtraction) : CodeExtraction :=
  { rust := base.rust ++ ov.rust
  , imports := if ov.imports = [] then base.imports else ov.imports
  , toml := if ov.toml = "" then base.toml else ov.toml }

/-- `retrieve_override()?.unwrap_or_default()` followed by the merge: an
absent override file (`none`) contributes the extraction of the empty
document. -/
def apply_override (base : CodeExtraction) (ov_events : Option (List MdEvent)) :
    CodeExtraction :=
  merge_override base (extract_code (ov_events.getD []))

/-- What `reqwest::get(url).await` can produce, as observed by `download`:
either the transport failed (connection, DNS, ...) — in which case the
source's `.unwrap()` panics — or some HTTP response arrived, carrying a
status and a body (the body already parsed into Markdown events, since it
"is treated as another literate document"). -/
inductive FetchResult where
  | transportError
  | response (status : Nat) (body : List MdEvent)
deriving DecidableEq

/-- Failure channel of the resolution: `notFound` is an `io::Error` value
returned to the caller with `?`; `panicked` is a Rust panic (an `unwrap` on
`Err`), which unwinds instead of being returned. -/
inductive Failure where
  | notFound (msg : String)
  | panicked
deriving DecidableEq

/-- Result type of the embedded fallible functions. -/
abbrev Res (α : Type) := Except Failure α

/-- `reqwest::StatusCode` `is_client_error() || is_server_error()`, the
condition under which `Response::error_for_status` returns `Err`: statuses
400–599.  Modelled from reqwest's documented interface (spec section 6 covers
the network collaborator only at its interface). -/
def status_is_error (s : Nat) : Bool :=
  decide (400 ≤ s ∧ s ≤ 599)

/-- `download` (src/parse/handle_imports.rs): `reqwest::get(url).await
.unwrap().error_for_status()`.  A transport error hits the `.unwrap()` and
panics; an error status becomes the red "Unable to download ..." `io::Error`;
otherwise the body is run through `extract_code`. -/
def download (net : String → FetchResult) (url : String) : Res CodeExtraction :=
  match net url with
  | .transportError => .error .panicked
  | .response status body =>
    if status_is_error status then
      .error (.notFound ("Unable to download build dependency from " ++ url))
    else
      .ok (extract_code body)

/-- `load` (src/parse/handle_imports.rs): read a local file if it exists,
else return the "No import file found at ..." `io::Error`.  The filesystem is
the partial map `fs` from paths to parsed contents. -/
def load (fs : String → Option (List MdEvent)) (name : String) : Res CodeExtraction :=
  match fs name with
  | some events => .ok (extract_code events)
  | none => .error (.notFound ("No import file found at " ++ name))

/-- The fixed start-marker statement prepended when any imports are declared. -/
def start_marker : String := "zamm_yang::helper::start_imports();\n"

/-- The fixed end-marker statement appended after the imported block. -/
def end_marker : String := "zamm_yang::helper::end_imports();\n"

/-- The `.filter(|i| !i.is_empty())` step of `retrieve_imports`. -/
def nonempty_imports (e : CodeExtraction) : List String :=
  e.imports.filter (fun i => !(i == ""))

/-- The network side of the `partition(|i| i.starts_with("http"))`. -/
def network_imports (e : CodeExtraction) : List String :=
  (nonempty_imports e).filter (fun i => starts_with i "http")

/-- The local side of the `partition(|i| i.starts_with("http"))`. -/
def local_imports (e : CodeExtraction) : List String :=
  (nonempty_imports e).filter (fun i => !(starts_with i "http"))

/-- One of the two `for` loops in `retrieve_imports`: append each resolved
extraction's source to the accumulator, stopping at the first failure (the
`?` operator). -/
def composeImports (f : String → Res CodeExtraction) (acc : String) :
    List String → Res String
  | [] => .ok acc
  | x :: rest =>
    match f x with
    | .ok e => composeImports f (acc ++ e.rust) rest
    | .error fl => .error fl

/-- `retrieve_imports` (src/parse/handle_imports.rs).  `imports_involved`
tests the unfiltered declaration list; local imports are composed first, then
the network imports, each side in its declared order (the network futures are
created by a lazy `map` and awaited one by one in the second loop, so they
too resolve in declared order); the host document's source follows the
end marker, and the manifest buffer passes through unchanged. -/
def retrieve_imports (net : String → FetchResult)
    (fs : String → Option (List MdEvent)) (e : CodeExtraction) :
    Res CodeExtraction :=
  let init := if e.imports = [] then "" else start_marker
  match composeImports (load fs) init (local_imports e) with
  | .error fl => .error fl
  | .ok after_locals =>
    match composeImports (download net) after_locals (network_imports e) with
    | .error fl => .error fl
    | .ok after_network =>
      let with_end := if e.imports = [] then after_network
        else after_network ++ end_marker
      .ok { rust := with_end ++ e.rust, toml := e.toml, imports := [] }

/-- `MainConfig` (src/intermediate_build/yang_structs.rs, not in the
snapshot).  Fields reconstructed from their uses in build_logic.rs:
`separate_imports` fills `imports` and `lines`, `code_main` reads them. -/
structure MainConfig where
  imports : List String
  lines : List String
deriving DecidableEq

/-- `CodegenConfig` (src/intermediate_build/yang_structs.rs, not in the
snapshot).  Fields reconstructed from `code_main` and `main.rs` (spec
section 3, GenerationConfig): five booleans. -/
structure CodegenConfig where
  comment_autogen : Bool
  add_rustfmt_attributes : Bool
  track_autogen : Bool
  yin : Bool
  release : Bool
deriving DecidableEq

/-- The `CodegenConfig` that `build` in main.rs constructs by default
(`comment_autogen` defaults to "true", rustfmt attributes always on). -/
def default_build_config : CodegenConfig :=
  { comment_autogen := true, add_rustfmt_attributes := true
  , track_autogen := false, yin := false, release := false }

/-- `YANG_BUILD_VERSION` (build_logic.rs). -/
def YANG_BUILD_VERSION : String := "0.0.12"

/-- `CODEGEN_BINARY` (build_logic.rs). -/
def CODEGEN_BINARY : String := "intermediate-code-generator"

/-- `toml_code` (build_logic.rs): the generated manifest.  It takes only the
`YANG_DEV_DIR` environment variable; the extraction's manifest buffer is not
among its inputs anywhere in the call graph. -/
def toml_code (yang_dev_dir : Option String) : String :=
  let yang_version :=
    match yang_dev_dir with
    | some dir => String.replace ("\x7bpath = \"" ++ dir ++ "\"\x7d") "\\" "/"
    | none => "\"" ++ YANG_BUILD_VERSION ++ "\""
  "[package]\nname = \"intermediate-code-generator\"\nversion = \"1.0.0\"\nedition = \"2018\"\n\n[dependencies]\nzamm_yin = \"0.0.13\"\nzamm_yang = " ++ yang_version ++ "\n"

/-- The import-recording expression of `separate_imports`:
`line.chars().skip(4).take(line.chars().count() - 5).collect()`. -/
def strip_use (line : String) : String :=
  String.mk ((line.data.drop 4).take (line.data.length - 5))

/-- Rust `str::split('\n')` on the character list: splits at every newline
and keeps empty pieces, so the empty string yields one empty piece. -/
def split_chars : List Char → List (List Char)
  | [] => [[]]
  | c :: rest =>
    if c = '\n' then [] :: split_chars rest
    else
      match split_chars rest with
      | [] => [[c]]
      | g :: gs => (c :: g) :: gs

/-- Rust `code.split('\n')` as a list of strings. -/
def split_newlines (s : String) : List String :=
  (split_chars s.data).map String.mk

/-- The `for line in code.split('\n')` loop of `separate_imports`, returning
(imports, non-import non-empty lines).  `none` models the debug-profile panic
of the unsigned `count() - 5` when a "use "-prefixed line has fewer than 5
characters (only the line `"use "` itself). -/
def processLines : List String → Option (List String × List String)
  | [] => some ([], [])
  | line :: rest =>
    if starts_with line "use " then
      if line.data.length < 5 then none
      else (processLines rest).map (fun p => (strip_use line :: p.1, p.2))
    else if line = "" then processLines rest
    else (processLines rest).map (fun p => (p.1, line :: p.2))

/-- `separate_imports` (build_logic.rs): split on newlines, divert "use "
lines, join the remaining lines into a single fragment. -/
def separate_imports (code : String) : Option MainConfig :=
  (processLines (split_newlines code)).map (fun p =>
    { imports := p.1
    , lines := if p.2 = [] then [] else [String.intercalate "\n" p.2] })

/-- The `{imports}` slot of `code_main`:
`imports.iter().map(|i| format!("pub use {};", i)).format("\n")`. -/
def imports_fragment (m : MainConfig) : String :=
  String.intercalate "\n" (m.imports.map (fun i => "pub use " ++ i ++ ";"))

/-- How Rust's `{}` formats a `bool`. -/
def bool_text (b : Bool) : String := if b then "true" else "false"

/-- The fixed text of the `code_main` template before the `{imports}` slot. -/
def preamble_uses : String :=
  "#![allow(dead_code, unused_imports)]\n\npub use zamm_yin::tao::Tao;\npub use zamm_yin::tao::archetype::ArchetypeTrait;\npub use zamm_yin::tao::archetype::ArchetypeFormTrait;\npub use zamm_yin::tao::archetype::AttributeArchetype;\npub use zamm_yin::tao::form::FormTrait;\npub use zamm_yin::node_wrappers::CommonNodeTrait;\npub use zamm_yang::codegen::CodegenConfig;\npub use zamm_yang::tao::callbacks::handle_all_implementations;\npub use zamm_yang::tao::initialize_kb;\npub use zamm_yang::tao::Implement;\npub use zamm_yang::tao::ImplementConfig;\npub use zamm_yang::tao::archetype::CodegenFlags;\npub use zamm_yang::tao::form::DefinedMarker;\npub use zamm_yang::tao::form::data::DataExtension;\npub use zamm_yang::tao::archetype::CreateImplementation;\npub use zamm_yang::define;\npub use zamm_yang::helper::aa;\n"

/-- The text of the `code_main` template after the `{imports}` slot: the
generated `fn main` with the config literal, the initialization hook, the
inlined literate code between the sentinel comments, and the finalization
hook. -/
def main_body (m : MainConfig) (cfg : CodegenConfig) : String :=
  "\n\nfn main() \x7b\n    let codegen_cfg = CodegenConfig \x7b\n        comment_autogen: "
    ++ bool_text cfg.comment_autogen
    ++ ",\n        add_rustfmt_attributes: "
    ++ bool_text cfg.add_rustfmt_attributes
    ++ ",\n        track_autogen: "
    ++ bool_text cfg.track_autogen
    ++ ",\n        yin: "
    ++ bool_text cfg.yin
    ++ ",\n        release: "
    ++ bool_text cfg.release
    ++ ",\n    \x7d;\n\n    initialize_kb();\n    // ------------------------ START OF LITERATE RUST -------------------------\n    "
    ++ String.intercalate "\n" m.lines
    ++ "\n    // -------------------------- END OF LITERATE RUST -------------------------\n    handle_all_implementations(&codegen_cfg);\n\x7d\n"

/-- `code_main` (build_logic.rs): the generated entry-point file. -/
def code_main (m : MainConfig) (cfg : CodegenConfig) : String :=
  preamble_uses ++ imports_fragment m ++ main_body m cfg

/-- `output_build_dir` (build_logic.rs): the pair of files written into the
workspace — src/main.rs from `code_main ∘ separate_imports` and Cargo.toml
from `toml_code` — or `none` when `separate_imports` panics. -/
def build_output_files (code : String) (cfg : CodegenConfig)
    (yang_dev_dir : Option String) : Option (String × String) :=
  (separate_imports code).map (fun m => (code_main m cfg, toml_code yang_dev_dir))

/-- The external-process outcomes that `build_codegen_binary` and
`generate_final_code` observe: the result of `run_streamed_command("cargo",
["build"])`, whether the expected artifact exists afterwards, and the result
of running the artifact. -/
structure BuildWorld where
  cargo_build : Except String String
  binary_exists : Bool
  codegen_run : Except String String

/-- `target/debug/intermediate-code-generator` (non-Windows; the `.exe`
suffix branch is platform configuration outside this model). -/
def binary_path : String := "target/debug/" ++ CODEGEN_BINARY

/-- The observation space for the build step.  `propagatedError` is what an
`io::Error` surfaced to the caller would look like; the source never produces
it, because the `Result` of the cargo invocation is discarded. -/
inductive BuildStepResult where
  | propagatedError (e : String)
  | exited (code : Nat)
  | continued (path : String)

/-- `build_codegen_binary` (build_logic.rs): the `Result` of
`run_streamed_command("cargo", vec!["build"])` is dropped (the statement ends
in `;` with no `?`), so `w.cargo_build` is not consulted; the code then
checks only whether the artifact exists — `exit(1)` if not, otherwise it
returns the artifact path. -/
def build_codegen_binary (w : BuildWorld) : BuildStepResult :=
  if w.binary_exists then .continued binary_path else .exited 1

/-- Outcomes of `generate_final_code`. -/
inductive PipelineResult where
  | buildPanicked
  | errorReturned (e : String)
  | exitProcess (code : Nat)
  | ranCodegen (binary : String) (run : Except String String)

/-- `generate_final_code` (build_logic.rs): write the workspace files, run
the build step, and — whenever the build step hands back a path — run the
codegen binary (that second `run_streamed_command`'s `Result` is likewise
discarded; we record it in the outcome). -/
def generate_final_code (code : String) (cfg : CodegenConfig)
    (yang_dev_dir : Option String) (w : BuildWorld) : PipelineResult :=
  match build_output_files code cfg yang_dev_dir with
  | none => .buildPanicked
  | some _files =>
    match build_codegen_binary w with
    | .propagatedError e => .errorReturned e
    | .exited c => .exitProcess c
    | .continued p => .ranCodegen p w.codegen_run

/-- Outcomes of the top-level `generate_code` (src/lib.rs), as far as the
workspace is concerned: either the parse/resolution stage returned an error
(and nothing was written), or the build stage panicked, or the two workspace
files were produced. -/
inductive RunOutcome where
  | errorExit (f : Failure)
  | buildPanicked
  | generated (entry_file manifest_file : String)

/-- `generate_code` (src/lib.rs): `parse_input` — which ends in
`retrieve_imports` — runs to completion before `generate_final_code` is ever
reached, so a resolution failure exits before any workspace write.  The
merged extraction parameter is the output of `extract_code` plus the
override merge (`parse_input`); the import declarations it carries are
produced upstream of this snapshot's markdown.rs. -/
def generate_code (net : String → FetchResult)
    (fs : String → Option (List MdEvent)) (merged : CodeExtraction)
    (cfg : CodegenConfig) (yang_dev_dir : Option String) : RunOutcome :=
  match retrieve_imports net fs merged with
  | .error fl => .errorExit fl
  | .ok e =>
    match build_output_files e.rust cfg yang_dev_dir with
    | none => .buildPanicked
    | some files => .generated files.1 files.2

/-- Observation: the run ended with an `io::Error` of the NotFound kind
returned to the caller (no files written, no panic). -/
def returned_not_found : RunOutcome → Bool
  | .errorExit (.notFound _) => true
  | _ => false

/-- Observation: the resolution ended in a Rust panic rather than a returned
error. -/
def resolution_crashes : Res CodeExtraction → Bool
  | .error .panicked => true
  | _ => false

/-! Basic string facts used throughout: `String` append is the append of the
underlying character lists. -/

theorem string_data_append (a b : String) : (a ++ b).data = a.data ++ b.data := by
  cases a
  cases b
  rfl

theorem string_append_empty (s : String) : s ++ "" = s := by
  cases s with
  | mk d => exact congrArg String.mk (List.append_nil d)

theorem string_empty_append (s : String) : "" ++ s = s := by
  cases s with
  | mk d => rfl

theorem string_append_assoc (a b c : String) : a ++ b ++ c = a ++ (b ++ c) := by
  cases a with
  | mk x =>
    cases b with
    | mk y =>
      cases c with
      | mk z => exact congrArg String.mk (List.append_assoc x y z)

theorem contains_from_append (pat y z : List Char) :
    contains_from pat (y ++ pat ++ z) = true := by
  induction y with
  | nil =>
    cases pat with
    | nil =>
      cases z with
      | nil => rfl
      | cons c w => simp [contains_from, List.isPrefixOf]
    | cons p ps =>
      have h : List.isPrefixOf (p :: ps) ((p :: ps) ++ z) = true :=
        List.isPrefixOf_iff_prefix.mpr (List.prefix_append _ _)
      simp [contains_from, h]
  | cons c y' ih =>
    simp [contains_from]
    exact Or.inr (by simpa [List.append_assoc] using ih)

theorem str_contains_mid (a pat c : String) :
    str_contains (a ++ pat ++ c) pat = true := by
  unfold str_contains
  rw [string_data_append, string_data_append]
  exact contains_from_append pat.data a.data c.data

/-- The source text contributed by one import under the resolver `f` (junk
`""` off the success path; only used under success hypotheses). -/
def rust_of (f : String → Res CodeExtraction) (x : String) : String :=
  match f x with
  | .ok e => e.rust
  | .error _ => ""

/-- Concatenation, in list order, of the source contributed by each import. -/
def concatRusts (f : String → Res CodeExtraction) : List String → String
  | [] => ""
  | x :: rest => rust_of f x ++ concatRusts f rest

theorem composeImports_ok (f : String → Res CodeExtraction) (xs : List String) :
    ∀ acc : String, (∀ x ∈ xs, ∃ e, f x = Except.ok e) →
      composeImports f acc xs = Except.ok (acc ++ concatRusts f xs) := by
  induction xs with
  | nil =>
    intro acc _
    simp [composeImports, concatRusts, string_append_empty]
  | cons x rest ih =>
    intro acc h
    obtain ⟨e, he⟩ := h x (by simp)
    have hx : rust_of f x = e.rust := by simp [rust_of, he]
    have step := ih (acc ++ e.rust) (fun y hy => h y (by simp [hy]))
    simp [composeImports, he, step, concatRusts, hx, string_append_assoc]

theorem composeImports_err (f : String → Res CodeExtraction) (xs : List String) :
    ∀ acc : String, (∀ x ∈ xs, f x ≠ Except.error Failure.panicked) →
      (∃ x ∈ xs, ∃ m, f x = Except.error (Failure.notFound m)) →
      ∃ m, composeImports f acc xs = Except.error (Failure.notFound m) := by
  induction xs with
  | nil =>
    intro acc _ hex
    simp at hex
  | cons x rest ih =>
    intro acc hnp hex
    cases hfx : f x with
    | ok e =>
      have hex' : ∃ y ∈ rest, ∃ m, f y = Except.error (Failure.notFound m) := by
        obtain ⟨y, hy, m, hm⟩ := hex
        rcases List.mem_cons.mp hy with h1 | h2
        · subst h1
          rw [hfx] at hm
          cases hm
        · exact ⟨y, h2, m, hm⟩
      obtain ⟨m, hc⟩ := ih (acc ++ e.rust)
        (fun y hy => hnp y (List.mem_cons_of_mem _ hy)) hex'
      exact ⟨m, by simp [composeImports, hfx, hc]⟩
    | error fl =>
      cases fl with
      | notFound m => exact ⟨m, by simp [composeImports, hfx]⟩
      | panicked => exact absurd hfx (hnp x (by simp))

/-- Observation on a fetch result: `download` will neither panic nor fail on
it (an arrived response whose status is not in the 400–599 range). -/
def fetch_succeeds : FetchResult → Bool
  | .transportError => false
  | .response s _ => !status_is_error s

theorem load_ok {fs : String → Option (List MdEvent)} {l : String}
    (h : (fs l).isSome = true) : ∃ e, load fs l = Except.ok e := by
  cases hfl : fs l with
  | none => rw [hfl] at h; cases h
  | some events => exact ⟨extract_code events, by simp [load, hfl]⟩

theorem download_ok {net : String → FetchResult} {u : String}
    (h : fetch_succeeds (net u) = true) : ∃ e, download net u = Except.ok e := by
  cases hnu : net u with
  | transportError => rw [hnu] at h; cases h
  | response s b =>
    rw [hnu] at h
    have hs : status_is_error s = false := by
      simpa [fetch_succeeds] using h
    exact ⟨extract_code b, by simp [download, hnu, hs]⟩

theorem download_no_panic {net : String → FetchResult} {u : String}
    (h : net u ≠ FetchResult.transportError) :
    download net u ≠ Except.error Failure.panicked := by
  cases hnu : net u with
  | transportError => exact absurd hnu h
  | response s b =>
    cases hs : status_is_error s <;> simp [download, hnu, hs]

theorem download_err {net : String → FetchResult} {u : String} {s : Nat}
    {b : List MdEvent} (hr : net u = FetchResult.response s b)
    (hs : status_is_error s = true) :
    download net u
      = Except.error (Failure.notFound
          ("Unable to download build dependency from " ++ u)) := by
  simp [download, hr, hs]

/-- Closed form of `retrieve_imports` when every local import loads and every
network fetch succeeds: start marker (when any declaration exists), then the
local imports' extracted source in declared order, then the network imports'
extracted source in declared order, then the end marker, then the host
document's own source; the manifest buffer is copied through. -/
theorem retrieve_imports_ok_form (net : String → FetchResult)
    (fs : String → Option (List MdEvent)) (e : CodeExtraction)
    (hl : ∀ l ∈ local_imports e, (fs l).isSome = true)
    (hn : ∀ u ∈ network_imports e, fetch_succeeds (net u) = true) :
    retrieve_imports net fs e = Except.ok
      { rust := (if e.imports = [] then "" else start_marker)
          ++ concatRusts (load fs) (local_imports e)
          ++ concatRusts (download net) (network_imports e)
          ++ (if e.imports = [] then "" else end_marker)
          ++ e.rust
      , toml := e.toml, imports := [] } := by
  by_cases he : e.imports = []
  · have h1 : composeImports (load fs) "" (local_imports e)
        = Except.ok (concatRusts (load fs) (local_imports e)) := by
      simpa [string_empty_append] using
        composeImports_ok (load fs) (local_imports e) ""
          (fun x hx => load_ok (hl x hx))
    have h2 := composeImports_ok (download net) (network_imports e)
      (concatRusts (load fs) (local_imports e))
      (fun x hx => download_ok (hn x hx))
    simp [retrieve_imports, he, h1, h2, string_empty_append,
      string_append_empty]
  · have h1 := composeImports_ok (load fs) (local_imports e) start_marker
      (fun x hx => load_ok (hl x hx))
    have h2 := composeImports_ok (download net) (network_imports e)
      (start_marker ++ concatRusts (load fs) (local_imports e))
      (fun x hx => download_ok (hn x hx))
    simp [retrieve_imports, he, h1, h2]

theorem processLines_some (ls : List String) :
    ∀ p, processLines ls = some p →
      p.1 = (ls.filter (fun l => starts_with l "use ")).map strip_use
      ∧ p.2 = ls.filter (fun l => !(starts_with l "use ") && !(l == "")) := by
  induction ls with
  | nil =>
    intro p hp
    simp [processLines] at hp
    simp [← hp]
  | cons l rest ih =>
    intro p hp
    simp only [processLines] at hp
    by_cases hs : starts_with l "use " = true
    · rw [if_pos hs] at hp
      by_cases hlen : l.data.length < 5
      · rw [if_pos hlen] at hp
        cases hp
      · rw [if_neg hlen] at hp
        rw [Option.map_eq_some'] at hp
        obtain ⟨q, hq, hfq⟩ := hp
        obtain ⟨hq1, hq2⟩ := ih q hq
        subst hfq
        simp [List.filter_cons, hs, hq1, hq2]
    · have hs' : starts_with l "use " = false := by
        cases h : starts_with l "use "
        · rfl
        · exact absurd h hs
      rw [if_neg hs] at hp
      by_cases hemp : l = ""
      · rw [if_pos hemp] at hp
        obtain ⟨hq1, hq2⟩ := ih p hp
        subst hemp
        simp [List.filter_cons, hs', hq1, hq2]
      · rw [if_neg hemp] at hp
        rw [Option.map_eq_some'] at hp
        obtain ⟨q, hq, hfq⟩ := hp
        obtain ⟨hq1, hq2⟩ := ih q hq
        subst hfq
        have hb : (l == "") = false := beq_eq_false_iff_ne.mpr hemp
        simp [List.filter_cons, hs', hq1, hq2, hb]

theorem processLines_isSome (ls : List String) :
    (processLines ls).isSome = true
      ↔ ∀ l ∈ ls, starts_with l "use " = true → 5 ≤ l.data.length := by
  induction ls with
  | nil => simp [processLines]
  | cons l rest ih =>
    simp only [processLines]
    have hmap : ∀ g : List String × List String → List String × List String,
        ((processLines rest).map g).isSome = (processLines rest).isSome := by
      intro g
      cases processLines rest <;> rfl
    by_cases hs : starts_with l "use " = true
    · rw [if_pos hs]
      by_cases hlen : l.data.length < 5
      · rw [if_pos hlen]
        apply iff_of_false
        · simp
        · intro h
          exact absurd (h l (by simp) hs) (by omega)
      · rw [if_neg hlen]
        rw [hmap, ih]
        constructor
        · intro h l' hl' hsl'
          rcases List.mem_cons.mp hl' with h1 | h2
          · subst h1; omega
          · exact h l' h2 hsl'
        · intro h l' hl' hsl'
          exact h l' (List.mem_cons_of_mem _ hl') hsl'
    · rw [if_neg hs]
      have hhead : ∀ l', l' = l → starts_with l' "use " = true → 5 ≤ l'.data.length := by
        intro l' hl' hsl'
        subst hl'
        exact absurd hsl' hs
      by_cases hemp : l = ""
      · rw [if_pos hemp, ih]
        constructor
        · intro h l' hl' hsl'
          rcases List.mem_cons.mp hl' with h1 | h2
          · exact hhead l' h1 hsl'
          · exact h l' h2 hsl'
        · intro h l' hl' hsl'
          exact h l' (List.mem_cons_of_mem _ hl') hsl'
      · rw [if_neg hemp]
        rw [hmap, ih]
        constructor
        · intro h l' hl' hsl'
          rcases List.mem_cons.mp hl' with h1 | h2
          · exact hhead l' h1 hsl'
          · exact h l' h2 hsl'
        · intro h l' hl' hsl'
          exact h l' (List.mem_cons_of_mem _ hl') hsl'

/-- C6: for every (base, override) pair the merged source is the base source
with the override source appended; the merged import list is the override's
when that is non-empty and otherwise the base's (full replacement, never a
union), likewise the manifest buffer; and an absent override file is not an
error and leaves the base extraction unchanged. -/
theorem override_merge_replaces (base ov : CodeExtraction) :
    (merge_override base ov).rust = base.rust ++ ov.rust
    ∧ (ov.imports ≠ [] → (merge_override base ov).imports = ov.imports)
    ∧ (ov.imports = [] → (merge_override base ov).imports = base.imports)
    ∧ (ov.toml ≠ "" → (merge_override base ov).toml = ov.toml)
    ∧ (ov.toml = "" → (merge_override base ov).toml = base.toml)
    ∧ apply_override base none = base := by
  refine ⟨rfl, ?_, ?_, ?_, ?_, ?_⟩
  · intro h
    simp [merge_override, h]
  · intro h
    simp [merge_override, h]
  · intro h
    simp [merge_override, h]
  · intro h
    simp [merge_override, h]
  · cases base with
    | mk r t i =>
      show merge_override ⟨r, t, i⟩ ⟨"", "", []⟩ = ⟨r, t, i⟩
      simp [merge_override, string_append_empty]

/-- Witness for C6, echoing the spec's own example: base source "a;" plus
override source "b;" merge to "a;\nb;", and a non-empty override import list
fully replaces the base's. -/
theorem override_merge_replaces_witness :
    (merge_override ⟨"a;\n", "base-toml", ["base.md"]⟩
        ⟨"b;\n", "", ["over.md"]⟩).rust = "a;\nb;\n"
    ∧ (merge_override ⟨"a;\n", "base-toml", ["base.md"]⟩
        ⟨"b;\n", "", ["over.md"]⟩).imports = ["over.md"]
    ∧ (merge_override ⟨"a;\n", "base-toml", ["base.md"]⟩
        ⟨"b;\n", "", ["over.md"]⟩).toml = "base-toml"
    ∧ apply_override ⟨"a;\n", "base-toml", ["base.md"]⟩ none
        = ⟨"a;\n", "base-toml", ["base.md"]⟩ :=
  ⟨(override_merge_replaces _ _).1,
   (override_merge_replaces ⟨"a;\n", "base-toml", ["base.md"]⟩
       ⟨"b;\n", "", ["over.md"]⟩).2.1 (by decide),
   (override_merge_replaces ⟨"a;\n", "base-toml", ["base.md"]⟩
       ⟨"b;\n", "", ["over.md"]⟩).2.2.2.2.1 (by decide),
   (override_merge_replaces ⟨"a;\n", "base-toml", ["base.md"]⟩
       ⟨"b;\n", "", ["over.md"]⟩).2.2.2.2.2⟩

/-- C8: a document whose single source-tagged block carries text C extracts
to a source buffer equal to C with exactly one trailing blank line trimmed
(and the same for a single manifest-tagged block); `trim_code` removes
exactly the final newline when the buffer ends in a blank line, is the
identity otherwise, and a buffer ending in two blank lines keeps one. -/
theorem single_block_trims_once (C : String) :
    extract_code [MdEvent.startFenced "rust", MdEvent.text C, MdEvent.endCodeBlock]
        = { rust := trim_code C, toml := "", imports := [] }
    ∧ extract_code [MdEvent.startFenced "toml", MdEvent.text C, MdEvent.endCodeBlock]
        = { rust := "", toml := trim_code C, imports := [] }
    ∧ (ends_blank C = true → trim_code C = String.mk C.data.dropLast)
    ∧ (ends_blank C = false → trim_code C = C)
    ∧ trim_code "x\n\n\n" = "x\n\n" := by
  have htc : trim_code "" = "" := rfl
  refine ⟨?_, ?_, ?_, ?_, by rfl⟩
  · simp [extract_code, extract_step, string_empty_append, htc]
  · simp [extract_code, extract_step, string_empty_append, htc]
  · intro h
    simp [trim_code, h]
  · intro h
    simp [trim_code, h]

/-- Witness for C8 at C = "let x = 5;\n\n": the buffer ends in a blank line,
and exactly one newline is trimmed. -/
theorem single_block_trims_once_witness :
    trim_code "let x = 5;\n\n" = "let x = 5;\n" :=
  (single_block_trims_once "let x = 5;\n\n").2.2.1 (by decide)

/-- C9: a (non-empty) import declaration lands on the network side of the
partition — and is therefore resolved by `download` in `retrieve_imports` —
exactly when its raw string starts with the four characters "http"; every
other non-empty declaration lands on the local side and is resolved by
`load`.  The witness instantiates the two consequences: a local-looking
relative path beginning with "http" is classified network, and a non-http
URL scheme is classified local. -/
theorem network_iff_http (e : CodeExtraction) (i : String)
    (hmem : i ∈ e.imports) (hne : i ≠ "") :
    (i ∈ network_imports e ↔ starts_with i "http" = true)
    ∧ (i ∈ local_imports e ↔ starts_with i "http" = false) := by
  have hb : (i == "") = false := beq_eq_false_iff_ne.mpr hne
  have hstep : i ∈ nonempty_imports e := by
    simp [nonempty_imports, List.mem_filter, hmem, hb]
  constructor
  · simp [network_imports, List.mem_filter, hstep]
  · simp [local_imports, List.mem_filter, hstep]

/-- Witness for C9: in the declaration list ["httpdocs/local.md",
"ftp://server/doc.md"], the relative path whose first component begins with
"http" is classified as a network import, while the ftp URL is classified as
a local path. -/
theorem network_iff_http_witness :
    "httpdocs/local.md"
        ∈ network_imports ⟨"", "", ["httpdocs/local.md", "ftp://server/doc.md"]⟩
    ∧ "ftp://server/doc.md"
        ∈ local_imports ⟨"", "", ["httpdocs/local.md", "ftp://server/doc.md"]⟩ :=
  ⟨(network_iff_http ⟨"", "", ["httpdocs/local.md", "ftp://server/doc.md"]⟩
      "httpdocs/local.md" (by decide) (by decide)).1.mpr (by decide),
   (network_iff_http ⟨"", "", ["httpdocs/local.md", "ftp://server/doc.md"]⟩
      "ftp://server/doc.md" (by decide) (by decide)).2.mpr (by decide)⟩

/-- C10: `separate_imports` is total exactly when every "use "-prefixed line
of the input has at least 5 characters; the sole violating line shape,
`"use "` itself, makes the debug-profile unsigned subtraction
`line.chars().count() - 5` overflow (modelled by `none`); and on well-formed
lines the recorded import drops the first four characters and the final
character. -/
theorem separate_imports_total_iff (code : String) :
    ((separate_imports code).isSome = true
      ↔ ∀ l ∈ split_newlines code, starts_with l "use " = true → 5 ≤ l.data.length)
    ∧ separate_imports "use " = none
    ∧ (∀ line : String, strip_use line = String.mk ((line.data.drop 4).dropLast)) := by
  refine ⟨?_, by rfl, ?_⟩
  · have hmap : ∀ g : List String × List String → MainConfig,
        ((processLines (split_newlines code)).map g).isSome
          = (processLines (split_newlines code)).isSome := by
      intro g
      cases processLines (split_newlines code) <;> rfl
    rw [separate_imports, hmap]
    exact processLines_isSome (split_newlines code)
  · intro line
    have hstep : (line.data.drop 4).dropLast
        = (line.data.drop 4).take (line.data.length - 5) := by
      rw [List.dropLast_eq_take, List.length_drop]
      congr 1
    rw [strip_use, hstep]

/-- Witness for C10: an input whose "use "-prefixed lines all have at least
five characters is processed without panicking. -/
theorem separate_imports_total_iff_witness :
    (separate_imports "use a::b;\nlet x = 1;").isSome = true :=
  (separate_imports_total_iff "use a::b;\nlet x = 1;").1.mpr (by decide)

/-- Counterexample for C3 as stated: the input lines "use b::c;",
"use a::b;", "use a::b;" are recorded in occurrence order with the duplicate
kept, and the emitted import block repeats the duplicate line and is not in
lexicographic order ("a::b" sorts before "b::c" yet is emitted after it);
no diagnostic exists anywhere in `separate_imports`. -/
theorem import_block_not_sorted_cex :
    separate_imports "use b::c;\nuse a::b;\nuse a::b;\nlet x = 1;"
        = some { imports := ["b::c", "a::b", "a::b"], lines := ["let x = 1;"] }
    ∧ imports_fragment { imports := ["b::c", "a::b", "a::b"], lines := ["let x = 1;"] }
        = "pub use b::c;\npub use a::b;\npub use a::b;"
    ∧ List.count "a::b" ["b::c", "a::b", "a::b"] = 2
    ∧ ["b::c", "a::b", "a::b"] ≠ ["a::b", "b::c"]
    ∧ ('a' : Char) < 'b' :=
  ⟨by rfl, by rfl, by rfl, by decide, by decide⟩

/-- C3 amended: the import list written into the generated entry-point file
is exactly the input's "use "-prefixed lines in occurrence order, duplicates
preserved, with neither deduplication, nor sorting, nor a diagnostic; the
block is emitted verbatim (one "pub use …;" line per recorded import, in
that order) between the fixed preamble and the generated main body. -/
theorem import_block_occurrence_order (code : String) (m : MainConfig)
    (cfg : CodegenConfig) (h : separate_imports code = some m) :
    m.imports
        = ((split_newlines code).filter (fun l => starts_with l "use ")).map strip_use
    ∧ imports_fragment m
        = String.intercalate "\n" (m.imports.map (fun i => "pub use " ++ i ++ ";"))
    ∧ str_contains (code_main m cfg) (imports_fragment m) = true := by
  refine ⟨?_, rfl, ?_⟩
  · rw [separate_imports, Option.map_eq_some'] at h
    obtain ⟨p, hp, hm⟩ := h
    have := (processLines_some (split_newlines code) p hp).1
    rw [← hm]
    exact this
  · exact str_contains_mid preamble_uses (imports_fragment m) (main_body m cfg)

/-- Witness for C3 amended at the input "use a::b;": the single
recorded import is "a::b", in occurrence order. -/
theorem import_block_occurrence_order_witness :
    (MainConfig.mk ["a::b"] []).imports
        = ((split_newlines "use a::b;").filter (fun l => starts_with l "use ")).map strip_use
    ∧ imports_fragment (MainConfig.mk ["a::b"] [])
        = String.intercalate "\n"
            ((MainConfig.mk ["a::b"] []).imports.map (fun i => "pub use " ++ i ++ ";"))
    ∧ str_contains (code_main (MainConfig.mk ["a::b"] []) default_build_config)
        (imports_fragment (MainConfig.mk ["a::b"] [])) = true :=
  import_block_occurrence_order "use a::b;" (MainConfig.mk ["a::b"] [])
    default_build_config (by rfl)

/-- Counterexample for C2 as stated: for an extraction whose manifest buffer
is the non-empty "dep1 = \"0.0.1\"\n", the manifest file the pipeline writes
is still exactly `toml_code` of the environment — the buffer's declared
dependency appears nowhere in it. -/
theorem manifest_ignores_buffer_cex :
    (CodeExtraction.mk "let x = 5;\n" "dep1 = \"0.0.1\"\n" []).toml ≠ ""
    ∧ (build_output_files (CodeExtraction.mk "let x = 5;\n" "dep1 = \"0.0.1\"\n" []).rust
        default_build_config none).map Prod.snd = some (toml_code none)
    ∧ str_contains (toml_code none) "dep1" = false :=
  ⟨by decide, by rfl, by decide⟩

/-- C2 amended: the generated manifest file never depends on the extraction
(in particular not on its manifest buffer): it is always `toml_code` of the
`YANG_DEV_DIR` environment, and with that variable unset it is exactly the
fixed package descriptor with the fixed default dependency set
(zamm_yin 0.0.13, zamm_yang 0.0.12). -/
theorem manifest_is_fixed (e : CodeExtraction) (cfg : CodegenConfig)
    (yang_dev_dir : Option String) :
    (build_output_files e.rust cfg yang_dev_dir).map Prod.snd
        = (separate_imports e.rust).map (fun _ => toml_code yang_dev_dir)
    ∧ toml_code none
        = "[package]\nname = \"intermediate-code-generator\"\nversion = \"1.0.0\"\nedition = \"2018\"\n\n[dependencies]\nzamm_yin = \"0.0.13\"\nzamm_yang = \"0.0.12\"\n"
    ∧ str_contains (toml_code none) "zamm_yin = \"0.0.13\"" = true := by
  refine ⟨?_, by rfl, by decide⟩
  cases h : separate_imports e.rust <;> simp [build_output_files, h]

/-- Counterexample for C4 as stated: with the cargo build invocation failing
(`cargo_build` is an error) but a stale artifact present, the pipeline does
not surface any error to its caller — it proceeds past the build step,
through artifact verification, and executes the artifact. -/
theorem build_failure_not_propagated_cex :
    generate_final_code "let x = 1;" default_build_config none
        { cargo_build := Except.error "Command failed: cargo build"
        , binary_exists := true, codegen_run := Except.ok "" }
      = PipelineResult.ranCodegen binary_path (Except.ok "")
    ∧ PipelineResult.ranCodegen binary_path (Except.ok "")
        ≠ PipelineResult.errorReturned "Command failed: cargo build" :=
  ⟨by rfl, fun h => PipelineResult.noConfusion h⟩

/-- C4 amended: the outcome of the build subcommand is discarded — the
orchestrator's behaviour is identical for a failing and a succeeding build
invocation — and the pipeline always continues to artifact verification,
which terminates the process with exit code 1 when the artifact is missing
and otherwise goes on to execute the (possibly stale) artifact; no build
failure is ever propagated to the caller. -/
theorem build_failure_ignored (code : String) (cfg : CodegenConfig)
    (yang_dev_dir : Option String) (b b' : Except String String) (ex : Bool)
    (runr : Except String String) :
    generate_final_code code cfg yang_dev_dir
        { cargo_build := b, binary_exists := ex, codegen_run := runr }
      = generate_final_code code cfg yang_dev_dir
        { cargo_build := b', binary_exists := ex, codegen_run := runr }
    ∧ (∀ m, separate_imports code = some m → ex = false →
        generate_final_code code cfg yang_dev_dir
            { cargo_build := b, binary_exists := ex, codegen_run := runr }
          = PipelineResult.exitProcess 1)
    ∧ (∀ m, separate_imports code = some m → ex = true →
        generate_final_code code cfg yang_dev_dir
            { cargo_build := b, binary_exists := ex, codegen_run := runr }
          = PipelineResult.ranCodegen binary_path runr) := by
  refine ⟨?_, ?_, ?_⟩
  · cases h : build_output_files code cfg yang_dev_dir <;>
      simp [generate_final_code, h, build_codegen_binary]
  · intro m hm hex
    subst hex
    simp [generate_final_code, build_output_files, hm, build_codegen_binary]
  · intro m hm hex
    subst hex
    simp [generate_final_code, build_output_files, hm, build_codegen_binary]

/-- Witness for C4 amended: with the artifact present, the pipeline runs the
codegen binary whatever the build invocation returned. -/
theorem build_failure_ignored_witness :
    generate_final_code "" default_build_config none
        { cargo_build := Except.ok "", binary_exists := true
        , codegen_run := Except.ok "done" }
      = PipelineResult.ranCodegen binary_path (Except.ok "done") :=
  (build_failure_ignored "" default_build_config none (Except.ok "")
      (Except.ok "") true (Except.ok "done")).2.2 ⟨[], []⟩ (by rfl) rfl

/-- Network double for the ordering counterexample: only "http://b.md" is
reachable, serving a one-block document "fn b();". -/
def net_order : String → FetchResult := fun u =>
  if u == "http://b.md" then
    FetchResult.response 200
      [MdEvent.startFenced "rust", MdEvent.text "fn b();\n", MdEvent.endCodeBlock]
  else FetchResult.transportError

/-- Filesystem double for the ordering counterexample: only "a.md" exists,
a one-block document "fn a();". -/
def fs_order : String → Option (List MdEvent) := fun p =>
  if p == "a.md" then
    some [MdEvent.startFenced "rust", MdEvent.text "fn a();\n", MdEvent.endCodeBlock]
  else none

/-- The host extraction declaring the network import before the local one. -/
def host_order : CodeExtraction := ⟨"", "", ["http://b.md", "a.md"]⟩

/-- Counterexample for C1 as stated: with the declaration list
["http://b.md", "a.md"] — network first, local second — the resolver
composes the local content before the network content, so the result is not
the by-index reassembly content(b) ++ content(a) that the claim requires
when network declarations precede local ones. -/
theorem declared_order_composition_cex :
    retrieve_imports net_order fs_order host_order
      = Except.ok ⟨"zamm_yang::helper::start_imports();\nfn a();\nfn b();\nzamm_yang::helper::end_imports();\n", "", []⟩
    ∧ ("zamm_yang::helper::start_imports();\nfn a();\nfn b();\nzamm_yang::helper::end_imports();\n" : String)
      ≠ "zamm_yang::helper::start_imports();\nfn b();\nfn a();\nzamm_yang::helper::end_imports();\n" :=
  ⟨by rfl, by decide⟩

/-- C1 amended: when every import resolves, the composed source is the
class-partitioned order — all local (non-"http"-prefixed) imports' content
first, in declared order, then all network imports' content, in declared
order (the network awaits happen sequentially in that same declared order,
so completion order still cannot affect the output) — wrapped in the markers
when any declaration exists, and followed by the host's own source.
Declaration order is preserved only within each class; locals always precede
networks regardless of how the two classes interleave in the list. -/
theorem composition_locals_then_network (net : String → FetchResult)
    (fs : String → Option (List MdEvent)) (e : CodeExtraction)
    (hl : ∀ l ∈ local_imports e, (fs l).isSome = true)
    (hn : ∀ u ∈ network_imports e, fetch_succeeds (net u) = true) :
    retrieve_imports net fs e = Except.ok
      { rust := (if e.imports = [] then "" else start_marker)
          ++ concatRusts (load fs) (local_imports e)
          ++ concatRusts (download net) (network_imports e)
          ++ (if e.imports = [] then "" else end_marker)
          ++ e.rust
      , toml := e.toml, imports := [] } :=
  retrieve_imports_ok_form net fs e hl hn

/-- Witness for C1 amended at the counterexample's own inputs. -/
theorem composition_locals_then_network_witness :
    retrieve_imports net_order fs_order host_order
      = Except.ok ⟨"zamm_yang::helper::start_imports();\nfn a();\nfn b();\nzamm_yang::helper::end_imports();\n", "", []⟩ :=
  composition_locals_then_network net_order fs_order host_order
    (by decide) (by decide)

/-- C7: when the import declaration list is empty the resolver adds neither
marker (the composed source is exactly the host's own source); when it is
non-empty and every import resolves, the composed source is exactly one
start-marker statement, then the imported block, then exactly one end-marker
statement, then the host document's own source — the wrapped prologue
precedes the host source, and each marker is emitted once by construction. -/
theorem markers_wrap_imports (net : String → FetchResult)
    (fs : String → Option (List MdEvent)) (e : CodeExtraction) :
    (e.imports = [] →
      retrieve_imports net fs e = Except.ok ⟨e.rust, e.toml, []⟩)
    ∧ (e.imports ≠ [] →
        (∀ l ∈ local_imports e, (fs l).isSome = true) →
        (∀ u ∈ network_imports e, fetch_succeeds (net u) = true) →
        retrieve_imports net fs e = Except.ok
          ⟨start_marker ++ concatRusts (load fs) (local_imports e)
            ++ concatRusts (download net) (network_imports e)
            ++ end_marker ++ e.rust, e.toml, []⟩) := by
  constructor
  · intro h
    have h1 : local_imports e = [] := by
      simp [local_imports, nonempty_imports, h]
    have h2 : network_imports e = [] := by
      simp [network_imports, nonempty_imports, h]
    simp [retrieve_imports, h, h1, h2, composeImports]
  · intro h hl hn
    have hform := retrieve_imports_ok_form net fs e hl hn
    simpa [h] using hform

/-- Witness for C7: a host with one local import gets its composed source
wrapped as start marker, imported content, end marker, host content; the
same resolver applied to the import-free host is the identity on the source. -/
theorem markers_wrap_imports_witness :
    retrieve_imports net_order fs_order ⟨"host();\n", "t", ["a.md"]⟩
      = Except.ok ⟨"zamm_yang::helper::start_imports();\nfn a();\nzamm_yang::helper::end_imports();\nhost();\n", "t", []⟩
    ∧ retrieve_imports net_order fs_order ⟨"host();\n", "t", []⟩
      = Except.ok ⟨"host();\n", "t", []⟩ :=
  ⟨(markers_wrap_imports net_order fs_order ⟨"host();\n", "t", ["a.md"]⟩).2
      (by decide) (by decide) (by decide),
   (markers_wrap_imports net_order fs_order ⟨"host();\n", "t", []⟩).1 rfl⟩

/-- Counterexample for C5 as stated: (i) a transport error on a
network import does not make the resolution "fail with a FetchFailure error returned
to the caller (not a crash)" — the `.unwrap()` on `reqwest::get` panics, so
the whole process crashes instead of returning an error; (ii) "non-2xx"
is also not the failure condition: a 304 response passes
`error_for_status` and its body is extracted as a successful import. -/
theorem transport_error_crashes_cex :
    resolution_crashes
        (retrieve_imports (fun _ => FetchResult.transportError) (fun _ => none)
          ⟨"", "", ["http://dead.example/x.md"]⟩) = true
    ∧ retrieve_imports
        (fun u => if u == "http://half.md" then FetchResult.response 304 [] else FetchResult.transportError)
        (fun _ => none) ⟨"", "", ["http://half.md"]⟩
      = Except.ok ⟨"zamm_yang::helper::start_imports();\nzamm_yang::helper::end_imports();\n", "", []⟩ :=
  ⟨by rfl, by rfl⟩

/-- C5 amended: when no network import suffers a transport error (those
panic instead of returning), every local import loads, and some
network import answers with a 4xx/5xx status, the whole run fails with a
NotFound-kind error returned to the caller: the resolution aborts with no
partial result, and because `generate_code` reaches the build stage only on
a successful resolution, no workspace file is produced (the `errorExit`
outcome carries no files). -/
theorem error_status_aborts_run (net : String → FetchResult)
    (fs : String → Option (List MdEvent)) (merged : CodeExtraction)
    (cfg : CodegenConfig) (yang_dev_dir : Option String)
    (hl : ∀ l ∈ local_imports merged, (fs l).isSome = true)
    (hnp : ∀ u ∈ network_imports merged, net u ≠ FetchResult.transportError)
    (herr : ∃ u ∈ network_imports merged, ∃ s b,
        net u = FetchResult.response s b ∧ status_is_error s = true) :
    returned_not_found (generate_code net fs merged cfg yang_dev_dir) = true := by
  have hlok : composeImports (load fs)
      (if merged.imports = [] then "" else start_marker) (local_imports merged)
      = Except.ok ((if merged.imports = [] then "" else start_marker)
          ++ concatRusts (load fs) (local_imports merged)) :=
    composeImports_ok (load fs) (local_imports merged) _
      (fun x hx => load_ok (hl x hx))
  have hnerr : ∃ m, composeImports (download net)
      ((if merged.imports = [] then "" else start_marker)
        ++ concatRusts (load fs) (local_imports merged)) (network_imports merged)
      = Except.error (Failure.notFound m) := by
    apply composeImports_err
    · intro u hu
      exact download_no_panic (hnp u hu)
    · obtain ⟨u, hu, s, b, hresp, hstat⟩ := herr
      exact ⟨u, hu, _, download_err hresp hstat⟩
  obtain ⟨m, hm⟩ := hnerr
  simp [generate_code, retrieve_imports, hlok, hm, returned_not_found]

/-- Witness for C5 amended: one network import answering 404 makes the run
return a NotFound error before any workspace file exists. -/
theorem error_status_aborts_run_witness :
    returned_not_found
      (generate_code (fun _ => FetchResult.response 404 []) (fun _ => none)
        ⟨"", "", ["http://missing.md"]⟩ default_build_config none) = true :=
  error_status_aborts_run (fun _ => FetchResult.response 404 []) (fun _ => none)
    ⟨"", "", ["http://missing.md"]⟩ default_build_config none
    (by decide) (by decide)
    ⟨"http://missing.md", by decide, 404, [], by decide, by decide⟩
